import Mathlib

/-!
Verification of the large_stock_options_monitor repository.

This development gives a shallow embedding, in Lean, of the parts of the
program that the checked claims are about:

* `v2_system/utils/data_utils.py` — the safe numeric coercion helpers
  (`safe_int_convert`, `safe_float_convert`);
* `v2_system/utils/big_options_processor.py` — the retrying API invoker
  (`retry_api_call_with_empty_check`), the option-chain strike filter inside
  `_get_option_codes`, the per-row snapshot pipeline and big-trade classifier
  inside `_get_options_big_trades_batch`, `_should_notify`, `_get_filter_key`,
  and the final sort of `get_recent_big_options`;
* `v2_system/start_multi_market_monitor.py` — the turn coordinator
  (`wait_for_turn_and_acquire_api`, `release_api_and_switch_turn`).

Python machine floats are modelled as exact rationals (the program only
compares and adds these quantities), Python ints as `Int`, pandas rows as
structures, and the heterogeneous API cell values as the inductive `PyVal`.
Fallible calls are modelled by explicit outcome types.  Time-dependent
shared state (the turn pointer, the semaphore) is modelled by explicit
observation traces.
-/

/-! ## Safe numeric coercion (`v2_system/utils/data_utils.py`) -/

/-- A heterogeneous value as it arrives in an API snapshot cell: Python
`None`, a string, an int, a float (modelled as an exact rational), or some
other non-numeric object (list, dict, ...). -/
inductive PyVal where
  | pynone
  | str (s : String)
  | int (n : Int)
  | float (q : ℚ)
  | obj
  deriving DecidableEq

/-- Value of a run of decimal digit characters, most significant first. -/
def digitsToNat (cs : List Char) : Nat :=
  cs.foldl (fun a c => 10 * a + (c.toNat - 48)) 0

/-- Leading sign of a Python numeric literal. -/
def parseSign : List Char → ℚ × List Char
  | '-' :: r => (-1, r)
  | '+' :: r => (1, r)
  | r => (1, r)

/-- Parse a decimal Python float literal (optional sign, integer part,
optional fractional part, as in `"12"`, `"-3.5"`, `".5"`, `"7."`).
Returns `none` for strings Python's `float()` would reject with
`ValueError`.  Exponent, infinity and nan forms are not modelled. -/
def parsePyFloat (s : String) : Option ℚ :=
  let (sg, rest) := parseSign s.data
  let ip := rest.takeWhile (fun c => c ≠ '.')
  let rest2 := rest.dropWhile (fun c => c ≠ '.')
  match rest2 with
  | [] =>
    if ip ≠ [] ∧ ip.all (·.isDigit) then some (sg * (digitsToNat ip : ℚ)) else none
  | _ :: fp =>
    if (ip ≠ [] ∨ fp ≠ []) ∧ ip.all (·.isDigit) ∧ fp.all (·.isDigit) then
      some (sg * ((digitsToNat ip : ℚ) + (digitsToNat fp : ℚ) / (10 : ℚ) ^ fp.length))
    else none

/-- A Python exception class relevant to the coercion helpers.  The
source's `except (ValueError, TypeError)` catches the first two;
`OverflowError` propagates to the caller. -/
inductive PyErr where
  | valueError
  | typeError
  | overflowError
  deriving DecidableEq

/-- A Python float value: a finite double (modelled as an exact rational;
IEEE rounding is not modelled) or one of the two infinities. -/
inductive PyFloat where
  | finite (q : ℚ)
  | inf
  | neginf
  deriving DecidableEq

/-- The magnitude at which `float()` overflows: `2 ^ 1024 - 2 ^ 970`,
the first integer that rounds beyond the largest finite IEEE-754 double
(written with sub-256 exponents so that literal evaluation applies). -/
def FLOAT_OVERFLOW_NAT : ℕ := (2 ^ 256) ^ 4 - (2 ^ 256) ^ 3 * 2 ^ 202

theorem FLOAT_OVERFLOW_NAT_eq : FLOAT_OVERFLOW_NAT = 2 ^ 1024 - 2 ^ 970 := by
  norm_num [FLOAT_OVERFLOW_NAT]

/-- The `float(int)` overflow threshold as an integer. -/
def INT_FLOAT_OVERFLOW : Int := (FLOAT_OVERFLOW_NAT : Int)

/-- Whether `float()` applied to this integer raises `OverflowError`. -/
def int_float_overflows (n : Int) : Bool := decide (INT_FLOAT_OVERFLOW ≤ |n|)

/-- The same overflow threshold as a rational, for the string path of
`float()`, where the conversion saturates to an infinity instead of
raising. -/
def FLOAT_INF_BOUND : ℚ := (FLOAT_OVERFLOW_NAT : ℚ)

/-- Whether a parsed decimal value saturates to `+inf` under `float()`. -/
def float_overflows (q : ℚ) : Bool := decide (FLOAT_INF_BOUND ≤ q)

/-- Python `float(value)`: ints within the double range and floats convert
(modelled exactly); ints beyond the range raise `OverflowError`; numeric
strings convert, saturating to the infinities beyond the range; non-numeric
strings raise `ValueError`; `None` and other objects raise `TypeError`. -/
def pyFloatOf : PyVal → Except PyErr PyFloat
  | .int n =>
    if int_float_overflows n then .error .overflowError else .ok (.finite (n : ℚ))
  | .float q => .ok (.finite q)
  | .str s =>
    match parsePyFloat s with
    | none => .error .valueError
    | some q =>
      if float_overflows q then .ok .inf
      else if float_overflows (-q) then .ok .neginf
      else .ok (.finite q)
  | .pynone => .error .typeError
  | .obj => .error .typeError

/-- The sentinel test `value is None or value == 'N/A' or value == ''`. -/
def isMissingSentinel (v : PyVal) : Bool :=
  v == .pynone || v == .str "N/A" || v == .str ""

/-- Python `int(x)` on a float: truncation toward zero. -/
def truncQ (q : ℚ) : Int := if 0 ≤ q then ⌊q⌋ else -⌊-q⌋

/-- Python `int(x)` on a float: truncation toward zero for finite values,
`OverflowError` on the infinities. -/
def py_int_of_float : PyFloat → Except PyErr Int
  | .finite q => .ok (truncQ q)
  | .inf => .error .overflowError
  | .neginf => .error .overflowError

/-- `data_utils.safe_int_convert`: sentinel values give the default,
otherwise `int(float(value))`; `ValueError` and `TypeError` are caught and
give the default, while `OverflowError` escapes the `except` clause and
propagates to the caller. -/
def safe_int_convert (value : PyVal) (default : Int) : Except PyErr Int :=
  if isMissingSentinel value then .ok default
  else
    match pyFloatOf value with
    | .ok f => py_int_of_float f
    | .error .valueError => .ok default
    | .error .typeError => .ok default
    | .error .overflowError => .error .overflowError

/-- `data_utils.safe_float_convert`: sentinel values give the default,
otherwise `float(value)`; `ValueError` and `TypeError` are caught and give
the default, while `OverflowError` propagates to the caller. -/
def safe_float_convert (value : PyVal) (default : ℚ) : Except PyErr PyFloat :=
  if isMissingSentinel value then .ok (.finite default)
  else
    match pyFloatOf value with
    | .ok f => .ok f
    | .error .valueError => .ok (.finite default)
    | .error .typeError => .ok (.finite default)
    | .error .overflowError => .error .overflowError

/-- The futu success return code `ft.RET_OK`. -/
def RET_OK : Int := 0

/-- A per-underlying threshold rule from the `OPTION_FILTERS` configuration
table (the configuration module is a collaborator; rules are parameters). -/
structure OptionFilter where
  min_volume : Int
  min_turnover : ℚ
  min_volume_diff : Int
  deriving DecidableEq

/-- `BigOptionsProcessor._get_filter_key`: deterministic choice of the
threshold-rule key from the underlying's identity and the processor's
market. -/
def get_filter_key (market : String) (stock_code : String) : String :=
  if stock_code = "HK.800000" then "hsi_options"
  else if stock_code = "HK.800700" then "hscei_options"
  else if market = "US" then "us_default"
  else "hk_default"

/-- The fields of the `trade_info` dict built for each processed snapshot
row (only the fields the checked claims are about). -/
structure TradeInfo where
  stock_code : String
  option_code : String
  volume : Int
  turnover : PyFloat
  volume_diff : Int
  last_volume : Int
  option_open_interest : Int
  option_net_open_interest : Int
  open_interest_diff : Int
  net_open_interest_diff : Int
  price : PyFloat
  change_rate : PyFloat
  deriving DecidableEq

/-- Python `x >= m` comparing a float value against a finite rational
threshold: an infinite turnover compares as larger than every threshold. -/
def pyfloat_ge (x : PyFloat) (m : ℚ) : Bool :=
  match x with
  | .finite q => decide (m ≤ q)
  | .inf => true
  | .neginf => false

/-- The `is_big_trade` conjunction of `_get_options_big_trades_batch`:
`current_volume >= min_volume and current_turnover >= min_turnover and
volume_diff >= min_volume_diff`. -/
def is_big_trade (flt : OptionFilter) (t : TradeInfo) : Bool :=
  decide (t.volume ≥ flt.min_volume) && pyfloat_ge t.turnover flt.min_turnover &&
    decide (t.volume_diff ≥ flt.min_volume_diff)

/-- The selection pass of `_get_options_big_trades_batch`: from the saved
records, keep exactly those flagged by `is_big_trade` under the rule chosen
by the record's filter key. -/
def select_big_trades (market : String) (filters : String → OptionFilter)
    (l : List TradeInfo) : List TradeInfo :=
  l.filter (fun t => is_big_trade (filters (get_filter_key market t.stock_code)) t)

/-- C1: a processed record is flagged as a big trade iff all three
threshold conditions of the rule selected by its filter key hold; in
particular `volume=1000, turnover=50000, volume_diff=0` under the rule
`500/10000/1` is not flagged. -/
theorem C1_big_trade_conjunction :
    (∀ (market : String) (filters : String → OptionFilter) (l : List TradeInfo)
      (t : TradeInfo),
      t ∈ select_big_trades market filters l ↔
        t ∈ l ∧
          (t.volume ≥ (filters (get_filter_key market t.stock_code)).min_volume ∧
           pyfloat_ge t.turnover (filters (get_filter_key market t.stock_code)).min_turnover =
             true ∧
           t.volume_diff ≥ (filters (get_filter_key market t.stock_code)).min_volume_diff)) ∧
    is_big_trade ⟨500, 10000, 1⟩
      ⟨"HK.00700", "HK.TCH250919C650000", 1000, .finite 50000, 0, 1000, 0, 0, 0, 0,
        .finite 1, .finite 0⟩ = false := by
  constructor
  · intro market filters l t
    simp [select_big_trades, List.mem_filter, is_big_trade, and_assoc]
  · decide

/-! ### Notification check (`_should_notify`) -/

/-- Assignment `d[k] = v` on a Python dict modelled as an association list
read through `dict_lookup` (first binding wins, so cons is overwrite). -/
def dict_insert (h : List (String × ℚ)) (k : String) (v : ℚ) : List (String × ℚ) :=
  (k, v) :: h

/-- Lookup `d.get(k)` on the association-list dict model. -/
def dict_lookup (h : List (String × ℚ)) (k : String) : Option ℚ :=
  (h.find? (fun p => p.1 == k)).map (·.2)

/-- `BigOptionsProcessor._should_notify`: the cooldown logic was removed
from the source; the check records the current time in the notification
history and returns `True` unconditionally. -/
def should_notify (history : List (String × ℚ)) (option_code : String) (now : ℚ) :
    Bool × List (String × ℚ) :=
  (true, dict_insert history option_code now)

/-- C3 counterexample: an instrument already present in the session's
notification history still passes the notification check — `_should_notify`
returns `True`, not `False` as the claim states. -/
theorem C3_counterexample_no_suppression :
    dict_lookup [("HK.TCH250919C650000", 1)] "HK.TCH250919C650000" = some 1 ∧
    (should_notify [("HK.TCH250919C650000", 1)] "HK.TCH250919C650000" 2).1 = true := by
  exact ⟨rfl, rfl⟩

/-- C3 amended: `_should_notify` returns `True` for every trade — also for
instruments already in the session's notification history — and records the
current time for the instrument; duplicate big-trade detections are therefore
not suppressed from notification. -/
theorem C3_should_notify_always_true :
    ∀ (history : List (String × ℚ)) (option_code : String) (now : ℚ),
      (should_notify history option_code now).1 = true ∧
      dict_lookup (should_notify history option_code now).2 option_code = some now := by
  intro history option_code now
  constructor
  · rfl
  · simp [should_notify, dict_insert, dict_lookup, List.find?]

/-! ### Previous-value lookup and per-row processing -/

/-- Durable-store collaborator state for previous option volumes and open
interest.  `storedVolume`/`storedOpenInterest` give the value persisted for
the current trading day (`none` when no prior value exists); `lookupOk`
models whether the `try` block around the two lookups succeeds for a code
(it is `false` when the lookup raises). -/
structure OptionDb where
  storedVolume : String → Option Int
  storedOpenInterest : String → Option (Int × Int)
  lookupOk : String → Bool

/-- Modelled from the spec: `database_manager.get_previous_option_volume`
is not under `src/`; per the Delta Tracker contract it returns the maximum
volume previously recorded for the current trading day, or zero if none
exists. -/
def get_previous_option_volume (db : OptionDb) (option_code : String) : Int :=
  (db.storedVolume option_code).getD 0

/-- Modelled from the spec:
`database_manager.get_previous_option_open_interest` is not under `src/`;
per the Delta Tracker contract it returns the persisted
(open interest, net open interest) pair, or `(0, 0)` if none exists. -/
def get_previous_option_open_interest (db : OptionDb) (option_code : String) : Int × Int :=
  (db.storedOpenInterest option_code).getD (0, 0)

/-- The per-code previous-volume map built by `_get_options_big_trades_batch`
(lines 742-763): the durable-store value, or `0` when the lookup raises. -/
def option_previous_volume (db : OptionDb) (option_code : String) : Int :=
  if db.lookupOk option_code then get_previous_option_volume db option_code else 0

/-- The per-code previous open-interest map of the same loop: the
durable-store pair, or `(0, 0)` when the lookup raises. -/
def option_previous_open_interest (db : OptionDb) (option_code : String) : Int × Int :=
  if db.lookupOk option_code then get_previous_option_open_interest db option_code
  else (0, 0)

/-- One pandas row of the batch `get_market_snapshot` result, with the cell
values still heterogeneous. -/
structure SnapshotRow where
  code : String
  volume : PyVal
  turnover : PyVal
  last_price : PyVal
  change_rate : PyVal
  option_open_interest : PyVal
  option_net_open_interest : PyVal
  option_strike_price : PyVal
  strike_price : PyVal

/-- Python truthiness `bool(x)` of an API cell value (`obj` stands for a
truthy non-numeric object). -/
def py_truthy : PyVal → Bool
  | .pynone => false
  | .str s => decide (s ≠ "")
  | .int n => decide (n ≠ 0)
  | .float q => decide (q ≠ 0)
  | .obj => true

/-- Python `x > 0` on an API cell: a numeric comparison for ints and
floats, `TypeError` otherwise. -/
def py_gt_zero : PyVal → Except PyErr Bool
  | .int n => .ok (decide (0 < n))
  | .float q => .ok (decide (0 < q))
  | _ => .error .typeError

/-- Whether the strike handling at lines 796-811 raises for a row:
`api_strike_price = row.option_strike_price or row.strike_price`, then
`if api_strike_price and api_strike_price > 0: strike_price = float(...)`.
The comparison raises `TypeError` on a truthy non-numeric cell, and the
`float()` call can raise `OverflowError`; either lands in the per-row
`except Exception` handler (lines 868-870), which skips the row. -/
def strike_check_raises (row : SnapshotRow) : Bool :=
  let api := if py_truthy row.option_strike_price then row.option_strike_price
             else row.strike_price
  if py_truthy api then
    match py_gt_zero api with
    | .error _ => true
    | .ok true =>
      match pyFloatOf api with
      | .error _ => true
      | .ok _ => false
    | .ok false => false
  else false

/-- The per-row body of `_get_options_big_trades_batch` (lines 769-870):
skip rows whose code has no mapped underlying; convert the numeric cells
in source order (a conversion that raises lands in the per-row
`except Exception` handler at lines 868-870, which skips the row without
the line-865 save); skip rows with non-positive converted volume and rows
whose strike-price check raises; otherwise build the `trade_info` record,
with the deltas recomputed from the current and previous values. -/
def build_trade_info (db : OptionDb) (option_stock_map : String → Option String)
    (row : SnapshotRow) : Option TradeInfo :=
  match option_stock_map row.code with
  | none => none
  | some stock_code =>
    match safe_int_convert row.volume 0 with
    | .error _ => none
    | .ok current_volume =>
      match safe_float_convert row.turnover 0 with
      | .error _ => none
      | .ok current_turnover =>
        match safe_float_convert row.last_price 0 with
        | .error _ => none
        | .ok last_price =>
          match safe_float_convert row.change_rate 0 with
          | .error _ => none
          | .ok change_rate =>
            match safe_int_convert row.option_open_interest 0 with
            | .error _ => none
            | .ok current_open_interest =>
              match safe_int_convert row.option_net_open_interest 0 with
              | .error _ => none
              | .ok current_net_open_interest =>
                if current_volume ≤ 0 then none
                else if strike_check_raises row then none
                else
                  let previous_volume := option_previous_volume db row.code
                  let poi := option_previous_open_interest db row.code
                  some
                    { stock_code := stock_code
                      option_code := row.code
                      volume := current_volume
                      turnover := current_turnover
                      volume_diff := current_volume - previous_volume
                      last_volume := previous_volume
                      option_open_interest := current_open_interest
                      option_net_open_interest := current_net_open_interest
                      open_interest_diff := current_open_interest - poi.1
                      net_open_interest_diff := current_net_open_interest - poi.2
                      price := last_price
                      change_rate := change_rate }

/-- C2: for every record built in a cycle, the reported `volume_diff` is
recomputed as current volume minus the previous volume used for that
instrument (and likewise for the open-interest deltas); when the lookup
raises or no prior persisted value exists, the previous values default to
zero, so the first-cycle delta equals the full current volume.
The durable-store read is modelled from the spec (see
`get_previous_option_volume`). -/
theorem C2_volume_delta_recomputed :
    ∀ (db : OptionDb) (option_stock_map : String → Option String) (row : SnapshotRow)
      (t : TradeInfo), build_trade_info db option_stock_map row = some t →
      (t.volume_diff = t.volume - t.last_volume ∧
       t.last_volume = option_previous_volume db row.code ∧
       t.open_interest_diff =
         t.option_open_interest - (option_previous_open_interest db row.code).1 ∧
       t.net_open_interest_diff =
         t.option_net_open_interest - (option_previous_open_interest db row.code).2) ∧
      (db.lookupOk row.code = false →
        t.last_volume = 0 ∧ t.volume_diff = t.volume ∧
        t.open_interest_diff = t.option_open_interest ∧
        t.net_open_interest_diff = t.option_net_open_interest) ∧
      (db.storedVolume row.code = none → t.last_volume = 0 ∧ t.volume_diff = t.volume) ∧
      (db.storedOpenInterest row.code = none →
        t.open_interest_diff = t.option_open_interest ∧
        t.net_open_interest_diff = t.option_net_open_interest) := by
  intro db option_stock_map row t h
  rcases hm : option_stock_map row.code with _ | stock_code
  · simp [build_trade_info, hm] at h
  · rcases h1 : safe_int_convert row.volume 0 with e | current_volume
    · simp [build_trade_info, hm, h1] at h
    · rcases h2 : safe_float_convert row.turnover 0 with e | current_turnover
      · simp [build_trade_info, hm, h1, h2] at h
      · rcases h3 : safe_float_convert row.last_price 0 with e | lp
        · simp [build_trade_info, hm, h1, h2, h3] at h
        · rcases h4 : safe_float_convert row.change_rate 0 with e | cr
          · simp [build_trade_info, hm, h1, h2, h3, h4] at h
          · rcases h5 : safe_int_convert row.option_open_interest 0 with e | coi
            · simp [build_trade_info, hm, h1, h2, h3, h4, h5] at h
            · rcases h6 : safe_int_convert row.option_net_open_interest 0 with e | cnoi
              · simp [build_trade_info, hm, h1, h2, h3, h4, h5, h6] at h
              · by_cases hv : current_volume ≤ 0
                · simp [build_trade_info, hm, h1, h2, h3, h4, h5, h6, hv] at h
                · cases hs : strike_check_raises row
                  · simp only [build_trade_info, hm, h1, h2, h3, h4, h5, h6, if_neg hv, hs,
                      Bool.false_eq_true, if_false] at h
                    have ht := Option.some.inj h
                    subst ht
                    refine ⟨⟨by simp, rfl, by simp, by simp⟩, ?_, ?_, ?_⟩
                    · intro hbad
                      simp [option_previous_volume, option_previous_open_interest, hbad]
                    · intro hnone
                      simp [option_previous_volume, get_previous_option_volume, hnone]
                    · intro hnone
                      simp [option_previous_open_interest,
                        get_previous_option_open_interest, hnone]
                  · simp [build_trade_info, hm, h1, h2, h3, h4, h5, h6, hv, hs] at h

/-- The snapshot row used by the C2 witness: volume 120, benign cells, and
a numeric strike. -/
def c2_witness_row : SnapshotRow :=
  ⟨"HK.TCH250919C650000", .int 120, .float 50000, .float 1, .float 0, .int 7, .int 3,
    .float 650, .int 0⟩

/-- The record the C2 witness row builds when no prior value is persisted:
its delta equals its full volume. -/
def c2_witness_trade : TradeInfo :=
  ⟨"HK.00700", "HK.TCH250919C650000", 120, .finite 50000, 120, 0, 7, 3, 7, 3,
    .finite 1, .finite 0⟩

set_option maxRecDepth 40000 in
/-- Witness for C2: a concrete row for an instrument with no prior
persisted value produces a record whose delta equals its full volume. -/
theorem C2_volume_delta_recomputed_witness :
    build_trade_info ⟨fun _ => none, fun _ => none, fun _ => true⟩
        (fun _ => some "HK.00700") c2_witness_row = some c2_witness_trade ∧
    c2_witness_trade.volume_diff = c2_witness_trade.volume ∧
    c2_witness_trade.last_volume = 0 := by
  have hb : build_trade_info ⟨fun _ => none, fun _ => none, fun _ => true⟩
      (fun _ => some "HK.00700") c2_witness_row = some c2_witness_trade := by rfl
  have h := C2_volume_delta_recomputed ⟨fun _ => none, fun _ => none, fun _ => true⟩
    (fun _ => some "HK.00700") c2_witness_row c2_witness_trade hb
  exact ⟨hb, (h.2.2.1 rfl).2, (h.2.2.1 rfl).1⟩

/-- The outcome of one invocation of the wrapped operation: either the call
itself raised, or it returned a `(ret, data)` pair, with `size` the length
of `data`. -/
inductive ApiOutcome where
  | raises (msg : String)
  | returns (ret : Int) (size : Nat)
  deriving DecidableEq

/-- The success check of the retry loop: a returned pair succeeds exactly
when `ret == RET_OK` and the data is non-empty; a raising call never
succeeds.  On success the `(ret, size)` pair is the value handed back. -/
def outcome_success : ApiOutcome → Option (Int × Nat)
  | .raises _ => none
  | .returns ret size => if ret = RET_OK ∧ size ≠ 0 then some (ret, size) else none

/-- Result of a run of the retry loop: the returned value or the failure
that was propagated, the trace of sleep durations, and the number of times
the wrapped operation was invoked. -/
structure RetryTrace where
  result : Except ApiOutcome (Int × Nat)
  sleeps : List ℚ
  calls : Nat

/-- The `for attempt in range(max_retries)` loop of
`retry_api_call_with_empty_check`, with `fuel` the number of loop
iterations left and `attempt` the index of the next invocation.  On a
failure with further iterations left the loop sleeps `delay` and retries;
on a failure in the last iteration it re-raises; the fuel-0 case is the
fall-through after the loop (reachable only when `max_retries = 0`), which
calls the operation once more without any check. -/
def retry_go (f : Nat → ApiOutcome) (delay : ℚ) (attempt : Nat) : Nat → RetryTrace
  | 0 =>
    match f attempt with
    | .raises msg => { result := .error (.raises msg), sleeps := [], calls := 1 }
    | .returns ret size => { result := .ok (ret, size), sleeps := [], calls := 1 }
  | fuel + 1 =>
    match outcome_success (f attempt) with
    | some v => { result := .ok v, sleeps := [], calls := 1 }
    | none =>
      if fuel = 0 then { result := .error (f attempt), sleeps := [], calls := 1 }
      else
        let t := retry_go f delay (attempt + 1) fuel
        { result := t.result, sleeps := delay :: t.sleeps, calls := t.calls + 1 }

/-- `retry_api_call_with_empty_check(api_func, max_retries, delay)` over an
operation modelled as the sequence `f` of its successive outcomes. -/
def retry_api_call_with_empty_check (f : Nat → ApiOutcome) (max_retries : Nat)
    (delay : ℚ) : RetryTrace :=
  retry_go f delay 0 max_retries

theorem retry_go_sleeps_const (f : Nat → ApiOutcome) (delay : ℚ) :
    ∀ (fuel attempt : Nat) (d : ℚ), d ∈ (retry_go f delay attempt fuel).sleeps → d = delay := by
  intro fuel
  induction fuel with
  | zero =>
    intro attempt d hd
    rw [retry_go] at hd
    cases hf : f attempt with
    | raises msg => rw [hf] at hd; simp at hd
    | returns ret size => rw [hf] at hd; simp at hd
  | succ n ih =>
    intro attempt d hd
    rw [retry_go] at hd
    rcases hs : outcome_success (f attempt) with _ | v <;> rw [hs] at hd
    · by_cases hn : n = 0
      · rw [if_pos hn] at hd
        simp at hd
      · rw [if_neg hn] at hd
        simp only [List.mem_cons] at hd
        rcases hd with hd | hd
        · exact hd
        · exact ih (attempt + 1) d hd
    · simp at hd

theorem retry_go_all_fail (f : Nat → ApiOutcome) (delay : ℚ)
    (hfail : ∀ k, outcome_success (f k) = none) :
    ∀ (fuel attempt : Nat), 1 ≤ fuel →
      retry_go f delay attempt fuel =
        { result := .error (f (attempt + fuel - 1)),
          sleeps := List.replicate (fuel - 1) delay, calls := fuel } := by
  intro fuel
  induction fuel with
  | zero => intro attempt h; exact absurd h (by decide)
  | succ n ih =>
    intro attempt _
    rw [retry_go, hfail attempt]
    by_cases hn : n = 0
    · subst hn
      simp
    · rw [if_neg hn]
      have h1 : 1 ≤ n := Nat.one_le_iff_ne_zero.mpr hn
      rw [ih (attempt + 1) h1]
      have he : attempt + 1 + n - 1 = attempt + (n + 1) - 1 := by omega
      have hr : List.replicate (n + 1 - 1) delay = delay :: List.replicate (n - 1) delay := by
        have : n + 1 - 1 = (n - 1) + 1 := by omega
        rw [this, List.replicate_succ]
      simp only [he, hr]

/-- C5: the retrying invoker treats a non-success return code and an empty
result each as a retryable failure; each sleep in a run has the same
constant duration `delay`; and an always-failing operation is invoked
exactly `max_retries` times, sleeping `max_retries - 1` times, after which
the last failure is propagated to the caller as a raised exception. -/
theorem C5_retry_semantics :
    (∀ ret size, outcome_success (.returns ret size) = none ↔ (ret ≠ RET_OK ∨ size = 0)) ∧
    (∀ (f : Nat → ApiOutcome) (max_retries : Nat) (delay d : ℚ),
      d ∈ (retry_api_call_with_empty_check f max_retries delay).sleeps → d = delay) ∧
    (∀ (f : Nat → ApiOutcome) (max_retries : Nat) (delay : ℚ),
      1 ≤ max_retries → (∀ k, outcome_success (f k) = none) →
      (retry_api_call_with_empty_check f max_retries delay).result =
          .error (f (max_retries - 1)) ∧
      (retry_api_call_with_empty_check f max_retries delay).calls = max_retries ∧
      (retry_api_call_with_empty_check f max_retries delay).sleeps =
          List.replicate (max_retries - 1) delay) := by
  refine ⟨?_, ?_, ?_⟩
  · intro ret size
    rw [outcome_success]
    constructor
    · intro h
      by_contra hc
      push_neg at hc
      rw [if_pos ⟨hc.1, hc.2⟩] at h
      exact Option.some_ne_none _ h
    · intro h
      rcases h with h | h
      · rw [if_neg (by tauto)]
      · rw [if_neg (by tauto)]
  · intro f max_retries delay d hd
    exact retry_go_sleeps_const f delay max_retries 0 d hd
  · intro f max_retries delay h1 hfail
    rw [retry_api_call_with_empty_check, retry_go_all_fail f delay hfail max_retries 0 h1]
    simp

/-- Witness for C5: with an operation that always returns a non-success
code, `max_retries = 3` and `delay = 10`, the invoker makes exactly 3
calls, sleeps twice for 10 each, and propagates the last failure. -/
theorem C5_retry_semantics_witness :
    outcome_success (.returns 1 5) = none ∧
    (retry_api_call_with_empty_check (fun _ => .returns 1 5) 3 10).result =
        .error (.returns 1 5) ∧
    (retry_api_call_with_empty_check (fun _ => .returns 1 5) 3 10).calls = 3 ∧
    (retry_api_call_with_empty_check (fun _ => .returns 1 5) 3 10).sleeps = [10, 10] := by
  have h := C5_retry_semantics
  have hfail : ∀ k : Nat, outcome_success ((fun _ => ApiOutcome.returns 1 5) k) = none :=
    fun k => (h.1 1 5).mpr (Or.inl (by decide))
  have h3 := h.2.2 (fun _ => .returns 1 5) 3 10 (by decide) hfail
  refine ⟨hfail 0, h3.1, h3.2.1, ?_⟩
  rw [h3.2.2]
  rfl

/-! ## Turn coordinator (`v2_system/start_multi_market_monitor.py`) -/

/-- What one iteration of the turn-wait loop observes of the shared state:
the running flag, the market whose turn it currently is, and whether the
binary API semaphore can be acquired without blocking. -/
structure TurnObs where
  running : Bool
  current_turn : String
  sem_free : Bool

/-- The `while self.running and wait_cycle < max_wait_cycles` loop of
`MultiMarketMonitor.wait_for_turn_and_acquire_api`: on each cycle, if the
turn matches and the non-blocking acquisition succeeds, return `True`;
otherwise sleep 5 seconds and try again; when the flag drops or the cycle
bound is reached, return `False`.  The second component is the trace of
sleep durations. -/
def wait_go (env : Nat → TurnObs) (market : String) (cycle : Nat) : Nat → Bool × List ℚ
  | 0 => (false, [])
  | fuel + 1 =>
    if (env cycle).running then
      if (env cycle).current_turn = market ∧ (env cycle).sem_free then (true, [])
      else
        let t := wait_go env market (cycle + 1) fuel
        (t.1, 5 :: t.2)
    else (false, [])

/-- `MultiMarketMonitor.wait_for_turn_and_acquire_api(market)`: with at
most one active market the blocking semaphore acquisition is taken
directly (modelled as succeeding); otherwise the bounded 60-cycle wait
loop runs. -/
def wait_for_turn_and_acquire_api (active_count : Nat) (env : Nat → TurnObs)
    (market : String) : Bool × List ℚ :=
  if active_count ≤ 1 then (true, [])
  else wait_go env market 0 60

theorem wait_go_sleeps_bound (env : Nat → TurnObs) (market : String) :
    ∀ (fuel cycle : Nat), (wait_go env market cycle fuel).2.length ≤ fuel ∧
      (∀ d ∈ (wait_go env market cycle fuel).2, d = (5 : ℚ)) := by
  intro fuel
  induction fuel with
  | zero => intro cycle; simp [wait_go]
  | succ n ih =>
    intro cycle
    rw [wait_go]
    by_cases hr : (env cycle).running
    · rw [if_pos hr]
      by_cases hm : (env cycle).current_turn = market ∧ (env cycle).sem_free
      · rw [if_pos hm]
        simp
      · rw [if_neg hm]
        have := ih (cycle + 1)
        constructor
        · simpa using Nat.succ_le_succ this.1
        · intro d hd
          simp only [List.mem_cons] at hd
          rcases hd with hd | hd
          · exact hd
          · exact this.2 d hd
    · rw [if_neg hr]
      simp

theorem wait_go_never_acquired (env : Nat → TurnObs) (market : String)
    (h : ∀ c, ¬((env c).current_turn = market ∧ (env c).sem_free = true)) :
    ∀ (fuel cycle : Nat), (wait_go env market cycle fuel).1 = false := by
  intro fuel
  induction fuel with
  | zero => intro cycle; rfl
  | succ n ih =>
    intro cycle
    rw [wait_go]
    by_cases hr : (env cycle).running
    · rw [if_pos hr]
      have hm : ¬((env cycle).current_turn = market ∧ (env cycle).sem_free) := by
        intro hc
        exact h cycle ⟨hc.1, hc.2⟩
      rw [if_neg hm]
      exact ih (cycle + 1)
    · rw [if_neg hr]

/-- C6: in multi-market mode the turn acquisition is bounded — it polls in
constant 5-second sleeps for at most 60 cycles, and when the turn is never
obtained it returns `false` (a skip signal) instead of raising or blocking
forever. -/
theorem C6_turn_wait_bounded :
    ∀ (active_count : Nat) (env : Nat → TurnObs) (market : String),
      1 < active_count →
      (wait_for_turn_and_acquire_api active_count env market).2.length ≤ 60 ∧
      (∀ d ∈ (wait_for_turn_and_acquire_api active_count env market).2, d = (5 : ℚ)) ∧
      ((∀ c, ¬((env c).current_turn = market ∧ (env c).sem_free = true)) →
        (wait_for_turn_and_acquire_api active_count env market).1 = false) := by
  intro active_count env market hcount
  have hgt : ¬ active_count ≤ 1 := not_le.mpr hcount
  rw [wait_for_turn_and_acquire_api, if_neg hgt]
  refine ⟨(wait_go_sleeps_bound env market 60 0).1,
    (wait_go_sleeps_bound env market 60 0).2, ?_⟩
  intro h
  exact wait_go_never_acquired env market h 60 0

/-- Witness for C6: with two active markets and an environment whose turn
pointer is always on the other market, the wait returns `false` after a
trace of at most 60 five-second sleeps. -/
theorem C6_turn_wait_bounded_witness :
    (wait_for_turn_and_acquire_api 2 (fun _ => ⟨true, "US", true⟩) "HK").2.length ≤ 60 ∧
    (∀ d ∈ (wait_for_turn_and_acquire_api 2 (fun _ => ⟨true, "US", true⟩) "HK").2,
      d = (5 : ℚ)) ∧
    (wait_for_turn_and_acquire_api 2 (fun _ => ⟨true, "US", true⟩) "HK").1 = false := by
  have h := C6_turn_wait_bounded 2 (fun _ => ⟨true, "US", true⟩) "HK" (by decide)
  exact ⟨h.1, h.2.1, h.2.2 (fun c hc => by simp at hc)⟩

/-- The shared coordination state of `MultiMarketMonitor`: the active
market set, the turn pointer, the semaphore permit count, and the
per-market last-API-call times (a dict modelled as an association list). -/
structure MonitorState where
  active_markets : Finset String
  current_turn : String
  api_semaphore : Nat
  last_api_call : List (String × ℚ)

/-- `MultiMarketMonitor.release_api_and_switch_turn(market)` at time `now`:
record the call time, release the semaphore, and — only in multi-market
mode — flip the turn to the other hard-wired market (`'HK'`/`'US'`) when
it is active. -/
def release_api_and_switch_turn (s : MonitorState) (market : String) (now : ℚ) :
    MonitorState :=
  let s1 := { s with last_api_call := dict_insert s.last_api_call market now,
                     api_semaphore := s.api_semaphore + 1 }
  if 1 < s1.active_markets.card then
    if market = "HK" ∧ "US" ∈ s1.active_markets then { s1 with current_turn := "US" }
    else if market = "US" ∧ "HK" ∈ s1.active_markets then { s1 with current_turn := "HK" }
    else s1
  else s1

/-- C7: release records the releasing market's call time, increments the
semaphore, and — when both markets are active — flips the turn to the
other market (so the releasing market does not hold the next turn); with
at most one active market the turn pointer is unchanged. -/
theorem C7_release_flips_turn :
    ∀ (s : MonitorState) (market : String) (now : ℚ),
      dict_lookup (release_api_and_switch_turn s market now).last_api_call market =
          some now ∧
      (release_api_and_switch_turn s market now).api_semaphore = s.api_semaphore + 1 ∧
      (s.active_markets = {"HK", "US"} →
        (market = "HK" →
          (release_api_and_switch_turn s market now).current_turn = "US") ∧
        (market = "US" →
          (release_api_and_switch_turn s market now).current_turn = "HK") ∧
        (market = "HK" ∨ market = "US" →
          (release_api_and_switch_turn s market now).current_turn ≠ market)) ∧
      (s.active_markets.card ≤ 1 →
        (release_api_and_switch_turn s market now).current_turn = s.current_turn) := by
  intro s market now
  refine ⟨?_, ?_, ?_, ?_⟩
  · rw [release_api_and_switch_turn]
    split
    · split
      · simp [dict_lookup, dict_insert, List.find?]
      · split
        · simp [dict_lookup, dict_insert, List.find?]
        · simp [dict_lookup, dict_insert, List.find?]
    · simp [dict_lookup, dict_insert, List.find?]
  · rw [release_api_and_switch_turn]
    split
    · split
      · rfl
      · split
        · rfl
        · rfl
    · rfl
  · intro hact
    have hcard : 1 < s.active_markets.card := by
      rw [hact]
      decide
    have hus : "US" ∈ s.active_markets := by
      rw [hact]
      decide
    have hhk : "HK" ∈ s.active_markets := by
      rw [hact]
      decide
    have hne1 : ("US" : String) ≠ "HK" := by decide
    have hne2 : ("HK" : String) ≠ "US" := by decide
    refine ⟨?_, ?_, ?_⟩
    · intro hm
      subst hm
      rw [release_api_and_switch_turn]
      simp [hcard, hus]
    · intro hm
      subst hm
      rw [release_api_and_switch_turn]
      simp [hcard, hus, hhk, hne1]
    · intro hm
      rcases hm with hm | hm <;> subst hm
      · rw [release_api_and_switch_turn]
        simp [hcard, hus, hne1, hne2]
      · rw [release_api_and_switch_turn]
        simp [hcard, hus, hhk, hne1, hne2]
  · intro hcard
    have hle : ¬ 1 < s.active_markets.card := not_lt.mpr hcard
    rw [release_api_and_switch_turn]
    simp only [if_neg hle]

/-- Witness for C7: with both markets active, `HK` releasing at time 42
hands the turn to `US`, records its call time, and frees the semaphore. -/
theorem C7_release_flips_turn_witness :
    dict_lookup (release_api_and_switch_turn ⟨{"HK", "US"}, "HK", 0, []⟩ "HK" 42).last_api_call
        "HK" = some 42 ∧
    (release_api_and_switch_turn ⟨{"HK", "US"}, "HK", 0, []⟩ "HK" 42).api_semaphore = 1 ∧
    (release_api_and_switch_turn ⟨{"HK", "US"}, "HK", 0, []⟩ "HK" 42).current_turn = "US" ∧
    (release_api_and_switch_turn ⟨{"HK", "US"}, "HK", 0, []⟩ "HK" 42).current_turn ≠ "HK" := by
  have h := C7_release_flips_turn ⟨{"HK", "US"}, "HK", 0, []⟩ "HK" 42
  have h3 := h.2.2.1 rfl
  exact ⟨h.1, h.2.1, h3.1 rfl, h3.2.2 (Or.inl rfl)⟩

/-! ## Option-chain strike filter (`_get_option_codes`, lines 635-661) -/

/-- One row of the `get_option_chain` result: instrument code and strike. -/
structure ChainEntry where
  code : String
  strike_price : ℚ
  deriving DecidableEq

/-- The `price_diff` column: `abs(strike_price - current_price)`. -/
def strike_dist (current_price : ℚ) (e : ChainEntry) : ℚ :=
  |e.strike_price - current_price|

/-- Comparison of chain entries by distance to the current price, the
order underlying `nsmallest(5, price_diff)`. -/
def dist_le (current_price : ℚ) (a b : ChainEntry) : Prop :=
  strike_dist current_price a ≤ strike_dist current_price b

instance (p : ℚ) : DecidableRel (dist_le p) :=
  fun a b => inferInstanceAs (Decidable (strike_dist p a ≤ strike_dist p b))

instance (p : ℚ) : IsTotal ChainEntry (dist_le p) :=
  ⟨fun a b => le_total (strike_dist p a) (strike_dist p b)⟩

instance (p : ℚ) : IsTrans ChainEntry (dist_le p) :=
  ⟨fun _ _ _ h1 h2 => le_trans h1 h2⟩

/-- The strike-window test `lower <= strike_price <= upper`. -/
def in_price_window (lower upper : ℚ) (e : ChainEntry) : Bool :=
  decide (lower ≤ e.strike_price) && decide (e.strike_price ≤ upper)

/-- The narrow filter: entries whose strike lies within `price_range` of
the current price. -/
def narrow_filtered (current_price price_range : ℚ) (chain : List ChainEntry) :
    List ChainEntry :=
  chain.filter
    (in_price_window (current_price * (1 - price_range)) (current_price * (1 + price_range)))

/-- The widened filter: the window fraction grows to `1.5 *` the
configured range. -/
def wider_filtered (current_price price_range : ℚ) (chain : List ChainEntry) :
    List ChainEntry :=
  chain.filter
    (in_price_window (current_price * (1 - price_range * (3 / 2)))
      (current_price * (1 + price_range * (3 / 2))))

/-- `nsmallest(5, price_diff)`: the five entries closest to the current
price, selected by a stable ascending sort on the distance. -/
def closest_options (current_price : ℚ) (l : List ChainEntry) : List ChainEntry :=
  (List.insertionSort (dist_le current_price) l).take 5

/-- The per-expiry strike filter of `_get_option_codes`: keep the codes of
the entries in the narrow window; if that window matches nothing, fall
back to the at-most-five entries of the widened window closest to the
current price. -/
def filter_chain_options (current_price price_range : ℚ) (chain : List ChainEntry) :
    List String :=
  if (narrow_filtered current_price price_range chain).isEmpty then
    (closest_options current_price (wider_filtered current_price price_range chain)).map
      ChainEntry.code
  else (narrow_filtered current_price price_range chain).map ChainEntry.code

/-- C8: when the narrow window matches, the filter retains exactly the
entries whose strike lies in `[p*(1-f), p*(1+f)]`; with `p = 100`,
`f = 0.4` and strikes `{50, 90, 150}` only strike 90 is retained; when the
narrow window matches nothing, the result is the at-most-five widened
window entries closest to `p` by absolute strike distance. -/
theorem C8_strike_window_filter :
    (filter_chain_options 100 (2 / 5) [⟨"K50", 50⟩, ⟨"K90", 90⟩, ⟨"K150", 150⟩] = ["K90"]) ∧
    (∀ (p f : ℚ) (chain : List ChainEntry) (c : String),
      narrow_filtered p f chain ≠ [] →
      (c ∈ filter_chain_options p f chain ↔
        ∃ e ∈ chain, e.code = c ∧
          p * (1 - f) ≤ e.strike_price ∧ e.strike_price ≤ p * (1 + f))) ∧
    (∀ (p f : ℚ) (chain : List ChainEntry),
      narrow_filtered p f chain = [] →
      filter_chain_options p f chain =
          (closest_options p (wider_filtered p f chain)).map ChainEntry.code ∧
      (filter_chain_options p f chain).length ≤ 5 ∧
      (∀ c ∈ filter_chain_options p f chain,
        ∃ e ∈ wider_filtered p f chain, e.code = c) ∧
      (∀ x ∈ closest_options p (wider_filtered p f chain),
        ∀ y ∈ wider_filtered p f chain,
          y ∉ closest_options p (wider_filtered p f chain) →
          strike_dist p x ≤ strike_dist p y)) := by
  refine ⟨?_, ?_, ?_⟩
  · have hn : narrow_filtered 100 (2 / 5) [⟨"K50", 50⟩, ⟨"K90", 90⟩, ⟨"K150", 150⟩] =
        [⟨"K90", 90⟩] := by
      norm_num [narrow_filtered, in_price_window, List.filter_cons, List.filter_nil]
    rw [filter_chain_options, hn]
    simp
  · intro p f chain c hne
    have hemp : (narrow_filtered p f chain).isEmpty = false := by
      rcases hl : narrow_filtered p f chain with _ | ⟨a, l⟩
      · exact absurd hl hne
      · rfl
    rw [filter_chain_options, hemp]
    simp only [Bool.false_eq_true, if_false, List.mem_map, narrow_filtered,
      List.mem_filter, in_price_window, Bool.and_eq_true, decide_eq_true_eq]
    constructor
    · rintro ⟨e, ⟨hmem, hlo, hhi⟩, hc⟩
      exact ⟨e, hmem, hc, hlo, hhi⟩
    · rintro ⟨e, hmem, hc, hlo, hhi⟩
      exact ⟨e, ⟨hmem, hlo, hhi⟩, hc⟩
  · intro p f chain hempty
    have hemp : (narrow_filtered p f chain).isEmpty = true := by
      rw [hempty]
      rfl
    have heq : filter_chain_options p f chain =
        (closest_options p (wider_filtered p f chain)).map ChainEntry.code := by
      rw [filter_chain_options, hemp]
      rfl
    refine ⟨heq, ?_, ?_, ?_⟩
    · rw [heq, List.length_map, closest_options, List.length_take]
      exact min_le_left _ _
    · intro c hc
      rw [heq] at hc
      obtain ⟨e, he, hcode⟩ := List.mem_map.mp hc
      have hsort : e ∈ List.insertionSort (dist_le p) (wider_filtered p f chain) :=
        List.take_subset 5 _ he
      exact ⟨e, (List.perm_insertionSort _ _).mem_iff.mp hsort, hcode⟩
    · intro x hx y hy hyn
      have hys : y ∈ List.insertionSort (dist_le p) (wider_filtered p f chain) :=
        (List.perm_insertionSort _ _).mem_iff.mpr hy
      rw [← List.take_append_drop 5 (List.insertionSort (dist_le p) (wider_filtered p f chain)),
        List.mem_append] at hys
      rcases hys with hys | hys
      · exact absurd hys hyn
      · exact (List.sorted_insertionSort (dist_le p) (wider_filtered p f chain)).rel_of_mem_take_of_mem_drop hx hys

/-- Witness for C8: the narrow-window equivalence applied at `p = 100`,
`f = 2/5`, and the fallback bounds applied at a chain whose narrow window
is empty. -/
theorem C8_strike_window_filter_witness :
    (∃ e ∈ [(⟨"K50", 50⟩ : ChainEntry), ⟨"K90", 90⟩, ⟨"K150", 150⟩], e.code = "K90" ∧
      (100 : ℚ) * (1 - 2 / 5) ≤ e.strike_price ∧ e.strike_price ≤ 100 * (1 + 2 / 5)) ∧
    (filter_chain_options 100 (1 / 10) [⟨"K87", 87⟩, ⟨"K150", 150⟩]).length ≤ 5 := by
  have h := C8_strike_window_filter
  constructor
  · refine (h.2.1 100 (2 / 5) [⟨"K50", 50⟩, ⟨"K90", 90⟩, ⟨"K150", 150⟩] "K90" ?_).mp ?_
    · norm_num [narrow_filtered, in_price_window, List.filter_cons, List.filter_nil]
    · rw [h.1]
      exact List.mem_singleton.mpr rfl
  · refine (h.2.2 100 (1 / 10) [⟨"K87", 87⟩, ⟨"K150", 150⟩] ?_).2.1
    norm_num [narrow_filtered, in_price_window, List.filter_cons, List.filter_nil]

/-! ## Final sort of `get_recent_big_options` (line 333) -/

/-- A record reaching the final sort: the records are dictionaries, and the
sort key is `x.get('turnover', 0)`, tolerating a missing turnover field. -/
structure BigOptionRec where
  option_code : String
  turnover : Option ℚ
  deriving DecidableEq

/-- The sort key `x.get('turnover', 0)`. -/
def turnover_key (t : BigOptionRec) : ℚ := t.turnover.getD 0

/-- The descending-turnover order of `sort(key=..., reverse=True)`. -/
def turnover_desc (a b : BigOptionRec) : Prop := turnover_key b ≤ turnover_key a

instance : DecidableRel turnover_desc :=
  fun a b => inferInstanceAs (Decidable (turnover_key b ≤ turnover_key a))

instance : IsTotal BigOptionRec turnover_desc :=
  ⟨fun a b => le_total (turnover_key b) (turnover_key a)⟩

instance : IsTrans BigOptionRec turnover_desc :=
  ⟨fun _ _ _ h1 h2 => le_trans h2 h1⟩

/-- `all_big_options.sort(key=lambda x: x.get('turnover', 0), reverse=True)`
— the stable descending sort on the turnover key that
`get_recent_big_options` applies before returning its list. -/
def sort_big_options (l : List BigOptionRec) : List BigOptionRec :=
  List.insertionSort turnover_desc l

/-- C10: the list returned by `get_recent_big_options` is a permutation of
the collected records arranged in non-increasing order of the turnover
field, a missing field sorting as turnover 0. -/
theorem C10_sorted_by_turnover_desc :
    ∀ l : List BigOptionRec,
      List.Perm (sort_big_options l) l ∧
      (sort_big_options l).Pairwise
        (fun a b => (b.turnover).getD 0 ≤ (a.turnover).getD 0) := by
  intro l
  constructor
  · exact List.perm_insertionSort turnover_desc l
  · exact List.Pairwise.imp (fun h => h) (List.sorted_insertionSort turnover_desc l)
